import Mathlib

/-!
Verification of the Sentinel-1 RTC exploration notebook
(`Sentinel1-RTC-example.ipynb`).

The notebook's original logic is pure string/list manipulation plus
NaN-skipping aggregation.  We embed it shallowly:

* Python strings are `List Char`; Python slicing (with negative indices
  and clamping) is `pySlice`.
* `keys.sort(key=lambda x: x[-32:-24])` is a stable sort by the
  8-character substring at positions `[-32:-24]`, modelled with
  `List.mergeSort` (Python's sort is specified to be stable).
* `files = [key[-36:] for key in keys]`, `satellites = [x[:3] ...]`,
  `dates = [x[4:12] ...]`, `direction = [x[19:22] ...]` are fixed-offset
  slices.
* the manifest writer emits `"/vsis3/" + key` per line, in order.
* `gdalbuildvrt -separate` + `src.descriptions = files` is a `Mosaic`
  record; `assign_coords`/`swap_dims` is `relabel`.
* `da.where(da != 0)` maps the no-data sentinel 0 to a missing value
  (`none`, modelling NaN); `.resample(time='1m').mean()` groups entries
  by month and takes the mean of the non-missing values, `none` when a
  group has none (xarray's default `skipna` mean).  Pixel values are
  modelled as `ℚ`.
-/

namespace S1RTC

/-- A Python string: its list of characters. -/
abbrev PyStr := List Char

/-- Resolve a Python slice endpoint for a sequence of length `n`:
negative indices count from the end, and the result is clamped into
`[0, n]`. -/
def pyIdx (n : Nat) (i : Int) : Nat :=
  if i < 0 then (i + n).toNat else min i.toNat n

/-- Python slice `s[i:j]` (step 1). -/
def pySlice (s : PyStr) (i j : Int) : PyStr :=
  (s.take (pyIdx s.length j)).drop (pyIdx s.length i)

/-- Python slice `s[i:]`. -/
def pySliceFrom (s : PyStr) (i : Int) : PyStr :=
  s.drop (pyIdx s.length i)

/-- Python slice `s[:j]`. -/
def pySliceTo (s : PyStr) (j : Int) : PyStr :=
  s.take (pyIdx s.length j)

/-- The sort key of the notebook: `lambda x: x[-32:-24]`, the 8-digit
acquisition date embedded in an object key. -/
def sortKey (k : PyStr) : PyStr := pySlice k (-32) (-24)

/-- Python's `<=` on strings: lexicographic comparison by code point. -/
def pyStrLe : PyStr → PyStr → Bool
  | [], _ => true
  | _ :: _, [] => false
  | a :: as, b :: bs =>
    if a.toNat < b.toNat then true
    else if b.toNat < a.toNat then false
    else pyStrLe as bs

/-- The comparator induced by the notebook's sort key. -/
def keyLe (a b : PyStr) : Bool := pyStrLe (sortKey a) (sortKey b)

/-- `keys.sort(key=lambda x: x[-32:-24])`: a stable sort of the object
keys by the embedded date substring. -/
def sortKeys (keys : List PyStr) : List PyStr :=
  keys.mergeSort keyLe

/-- `key[-36:]`: the scene filename, the last 36 characters of a key. -/
def fileName (k : PyStr) : PyStr := pySliceFrom k (-36)

/-- `files = [key[-36:] for key in keys]`. -/
def filesOf (keys : List PyStr) : List PyStr := keys.map fileName

/-- `x[:3]`: the satellite id of a scene filename. -/
def satelliteOf (f : PyStr) : PyStr := pySliceTo f 3

/-- `x[4:12]`: the acquisition date of a scene filename. -/
def dateOf (f : PyStr) : PyStr := pySlice f 4 12

/-- `x[19:22]`: the orbit direction of a scene filename. -/
def directionOf (f : PyStr) : PyStr := pySlice f 19 22

/-- `satellites = [x[:3] for x in files]`. -/
def satellitesOf (files : List PyStr) : List PyStr := files.map satelliteOf

/-- `dates = [x[4:12] for x in files]`. -/
def datesOf (files : List PyStr) : List PyStr := files.map dateOf

/-- `direction = [x[19:22] for x in files]`. -/
def directionsOf (files : List PyStr) : List PyStr := files.map directionOf

/-- A scene filename assembled from the documented layout
`[SATELLITE]_[DATE]_[TILE ID]_[ORBIT DIRECTION]/[ASSET]`. -/
def mkFilename (sat date tile orb asset : PyStr) : PyStr :=
  sat ++ '_' :: date ++ '_' :: tile ++ '_' :: orb ++ '/' :: asset

/-- The fixed virtual-filesystem path tag written before every key in
the manifest (`"/vsis3/%s\n" % key`). -/
def vsis3 : PyStr := "/vsis3/".data

/-- The manifest `s3paths.txt`: one line per key, in order, each the
fixed virtual-filesystem tag followed by the key. -/
def manifestLines (keys : List PyStr) : List PyStr :=
  keys.map (fun k => vsis3 ++ k)

/-- The multi-band virtual raster: `gdalbuildvrt -separate` makes band
`i` read from manifest line `i`; `src.descriptions = files` stores the
per-band labels. -/
structure Mosaic where
  bandSources : List PyStr
  descriptions : List PyStr

/-- `gdalbuildvrt -overwrite -separate -input_file_list s3paths.txt`:
one band per manifest line, in manifest order, with empty default band
descriptions. -/
def buildVrt (keys : List PyStr) : Mosaic :=
  { bandSources := manifestLines keys
    descriptions := List.replicate keys.length [] }

/-- `src.descriptions = files`: overwrite the per-band labels. -/
def setDescriptions (m : Mosaic) (files : List PyStr) : Mosaic :=
  { m with descriptions := files }

/-- The mosaic as the notebook builds it: bands from the sorted keys,
then labels set to the scene filenames, in the same order. -/
def mosaicFor (keys : List PyStr) : Mosaic :=
  setDescriptions (buildVrt keys) (filesOf keys)

/-- The mosaic with its band axis swapped for a time axis. -/
structure TimeIndexedRaster where
  bandSources : List PyStr
  times : List PyStr

/-- Temporal relabeling: re-read the persisted band labels
(`filenames = src.descriptions`), parse `x[4:12]` from each, and attach
them as the `time` coordinate of the unchanged band axis
(`assign_coords` + `swap_dims`). -/
def relabel (m : Mosaic) : TimeIndexedRaster :=
  { bandSources := m.bandSources
    times := m.descriptions.map (fun x => pySlice x 4 12) }

end S1RTC

namespace S1RTC

/-! Section: Basic facts about the lexicographic comparator -/

theorem pyStrLe_refl : ∀ s : PyStr, pyStrLe s s = true := by
  intro s
  induction s with
  | nil => rfl
  | cons a as ih => simp [pyStrLe, ih]

theorem pyStrLe_total : ∀ s t : PyStr, pyStrLe s t || pyStrLe t s := by
  intro s
  induction s with
  | nil => intro t; simp [pyStrLe]
  | cons a as ih =>
    intro t
    cases t with
    | nil => simp [pyStrLe]
    | cons b bs =>
      by_cases hab : a.toNat < b.toNat
      · simp [pyStrLe, hab]
      · by_cases hba : b.toNat < a.toNat
        · simp [pyStrLe, hab, hba]
        · have ih' := ih bs
          simp [pyStrLe, hab, hba]
          simpa using ih'

theorem pyStrLe_trans :
    ∀ s t u : PyStr, pyStrLe s t = true → pyStrLe t u = true → pyStrLe s u = true := by
  intro s
  induction s with
  | nil => intro t u _ _; rfl
  | cons a as ih =>
    intro t u hst htu
    cases t with
    | nil => simp [pyStrLe] at hst
    | cons b bs =>
      cases u with
      | nil => simp [pyStrLe] at htu
      | cons c cs =>
        have hst' : a.toNat < b.toNat ∨ (a.toNat = b.toNat ∧ pyStrLe as bs = true) := by
          simp only [pyStrLe] at hst
          split at hst
          · exact Or.inl (by assumption)
          · split at hst
            · simp at hst
            · exact Or.inr ⟨by omega, hst⟩
        have htu' : b.toNat < c.toNat ∨ (b.toNat = c.toNat ∧ pyStrLe bs cs = true) := by
          simp only [pyStrLe] at htu
          split at htu
          · exact Or.inl (by assumption)
          · split at htu
            · simp at htu
            · exact Or.inr ⟨by omega, htu⟩
        have hab : a.toNat ≤ b.toNat := by rcases hst' with h | ⟨h, _⟩ <;> omega
        have hbc : b.toNat ≤ c.toNat := by rcases htu' with h | ⟨h, _⟩ <;> omega
        simp only [pyStrLe]
        split
        · rfl
        · split
          · omega
          · rcases hst' with h | ⟨hab', hrec1⟩
            · omega
            rcases htu' with h | ⟨hbc', hrec2⟩
            · omega
            exact ih bs cs hrec1 hrec2

theorem keyLe_trans :
    ∀ a b c : PyStr, keyLe a b → keyLe b c → keyLe a c := by
  intro a b c hab hbc
  exact pyStrLe_trans _ _ _ hab hbc

theorem keyLe_total : ∀ a b : PyStr, keyLe a b || keyLe b a := by
  intro a b
  exact pyStrLe_total _ _

/-! Section: Easy pipeline facts -/

/-- Claim C8. The manifest has exactly one line per key: as many lines as
keys, and line `i` is the fixed virtual-filesystem tag followed by key
`i`, preserving input order. -/
theorem manifest_one_line_per_key (keys : List PyStr) :
    (manifestLines keys).length = keys.length ∧
    ∀ i : Nat, (manifestLines keys)[i]? = (keys[i]?).map (fun k => vsis3 ++ k) := by
  refine ⟨by simp [manifestLines], fun i => ?_⟩
  simp [manifestLines]

/-- Claim C5. Zero catalog matches is a valid, non-error result: the empty
key list is a distinguishable zero-length sequence, and every downstream
stage (chronological sort, field extraction, manifest writing) maps it
to the empty sequence rather than failing. -/
theorem empty_search_result_ok :
    ([] : List PyStr).length = 0 ∧
    sortKeys [] = [] ∧
    filesOf [] = [] ∧
    satellitesOf (filesOf []) = [] ∧
    datesOf (filesOf []) = [] ∧
    directionsOf (filesOf []) = [] ∧
    manifestLines [] = [] := by
  refine ⟨rfl, ?_, rfl, rfl, rfl, rfl, rfl⟩
  simp [sortKeys, List.mergeSort]

/-! Section: Fixed-offset slicing facts -/

theorem pyIdx_neg (n : Nat) (i : Int) (hi : i < 0) :
    pyIdx n i = (i + n).toNat := by
  simp [pyIdx, hi]

/-- Claim C9. For every key holding the full 36-character scene filename,
the 8-character sort key taken at `[-32:-24]` coincides with the date
field later parsed at `[4:12]` of the filename suffix `key[-36:]`: sort
order and relabeling dates come from the same substring. -/
theorem sortKey_eq_parsed_date (k : PyStr) (h : 36 ≤ k.length) :
    sortKey k = dateOf (fileName k) := by
  have h24 : pyIdx k.length (-24) = k.length - 24 := by
    rw [pyIdx_neg _ _ (by norm_num)]; omega
  have h32 : pyIdx k.length (-32) = k.length - 32 := by
    rw [pyIdx_neg _ _ (by norm_num)]; omega
  have h36 : pyIdx k.length (-36) = k.length - 36 := by
    rw [pyIdx_neg _ _ (by norm_num)]; omega
  have hfl : fileName k = k.drop (k.length - 36) := by
    unfold fileName pySliceFrom; rw [h36]
  have hm : (fileName k).length = 36 := by
    rw [hfl, List.length_drop]; omega
  have e1 : dateOf (fileName k) = ((k.drop (k.length - 36)).take 12).drop 4 := by
    unfold dateOf pySlice
    rw [hm, hfl]
    have h12 : pyIdx 36 12 = 12 := by decide
    have h4 : pyIdx 36 4 = 4 := by decide
    rw [h12, h4]
  have e2 : ((k.drop (k.length - 36)).take 12).drop 4
      = (k.take (k.length - 36 + 12)).drop (k.length - 36 + 4) := by
    rw [List.take_drop, List.drop_drop]
  have e3 : k.length - 36 + 12 = k.length - 24 := by omega
  have e4 : k.length - 36 + 4 = k.length - 32 := by omega
  have e5 : sortKey k = (k.take (k.length - 24)).drop (k.length - 32) := by
    unfold sortKey pySlice; rw [h24, h32]
  rw [e5, e1, e2, e3, e4]

/-- Witness for C9: a real-shaped object key, 36 ≤ length discharged
concretely. -/
theorem sortKey_eq_parsed_date_witness :
    sortKey "sentinel-s1-rtc-indigo/tiles/RTC/1/IW/12/S/YJ/2020/S1B_20200101_12SYJ_ASC/Gamma0_VV.tif".data
      = dateOf (fileName "sentinel-s1-rtc-indigo/tiles/RTC/1/IW/12/S/YJ/2020/S1B_20200101_12SYJ_ASC/Gamma0_VV.tif".data) :=
  sortKey_eq_parsed_date _ (by decide)

/-- Claim C3. Positional fixed-width parsing agrees with the documented
`[SATELLITE]_[DATE]_[TILE ID]_[ORBIT DIRECTION]/[ASSET]` layout: for a
key ending in a synthetically assembled 36-character filename, the
filename suffix is recovered exactly, and the substrings at `[:3]`,
`[4:12]` and `[19:22]` are exactly the satellite, date and orbit
direction fields that were assembled. -/
theorem positional_parse_matches_layout
    (pre sat date tile orb asset : PyStr)
    (hs : sat.length = 3) (hd : date.length = 8) (ht : tile.length = 5)
    (ho : orb.length = 3) (ha : asset.length = 13) :
    fileName (pre ++ mkFilename sat date tile orb asset) = mkFilename sat date tile orb asset ∧
    satelliteOf (mkFilename sat date tile orb asset) = sat ∧
    dateOf (mkFilename sat date tile orb asset) = date ∧
    directionOf (mkFilename sat date tile orb asset) = orb := by
  have hflen : (mkFilename sat date tile orb asset).length = 36 := by
    simp [mkFilename]; omega
  refine ⟨?_, ?_, ?_, ?_⟩
  · unfold fileName pySliceFrom
    have hL : (pre ++ mkFilename sat date tile orb asset).length = pre.length + 36 := by
      rw [List.length_append, hflen]
    have hp : pyIdx (pre ++ mkFilename sat date tile orb asset).length (-36) = pre.length := by
      rw [pyIdx_neg _ _ (by norm_num), hL]; omega
    rw [hp, List.drop_left]
  · unfold satelliteOf pySliceTo
    rw [hflen]
    have h3 : pyIdx 36 3 = 3 := by decide
    rw [h3]
    simp only [mkFilename, List.append_assoc, List.cons_append]
    exact List.take_left' hs
  · unfold dateOf pySlice
    rw [hflen]
    have h12 : pyIdx 36 12 = 12 := by decide
    have h4 : pyIdx 36 4 = 4 := by decide
    rw [h12, h4]
    have e1 : mkFilename sat date tile orb asset
        = (sat ++ '_' :: date) ++ ('_' :: tile ++ '_' :: orb ++ '/' :: asset) := by
      simp [mkFilename]
    rw [e1, List.take_left' (by simp [hs, hd])]
    have e2 : sat ++ '_' :: date = (sat ++ ['_']) ++ date := by simp
    rw [e2, List.drop_left' (by simp [hs])]
  · unfold directionOf pySlice
    rw [hflen]
    have h22 : pyIdx 36 22 = 22 := by decide
    have h19 : pyIdx 36 19 = 19 := by decide
    rw [h22, h19]
    have e1 : mkFilename sat date tile orb asset
        = ((sat ++ '_' :: date ++ '_' :: tile ++ ['_']) ++ orb) ++ ('/' :: asset) := by
      simp [mkFilename]
    rw [e1, List.take_left' (by simp [hs, hd, ht, ho])]
    rw [List.drop_left' (by simp [hs, hd, ht])]

/-- Witness for C3: a concrete prefix and concrete fields of the
documented widths. -/
theorem positional_parse_matches_layout_witness :
    fileName ("sentinel-s1-rtc-indigo/tiles/RTC/1/IW/12/S/YJ/2020/".data
        ++ mkFilename "S1B".data "20200103".data "12SYJ".data "ASC".data "Gamma0_VV.tif".data)
      = mkFilename "S1B".data "20200103".data "12SYJ".data "ASC".data "Gamma0_VV.tif".data ∧
    satelliteOf (mkFilename "S1B".data "20200103".data "12SYJ".data "ASC".data "Gamma0_VV.tif".data) = "S1B".data ∧
    dateOf (mkFilename "S1B".data "20200103".data "12SYJ".data "ASC".data "Gamma0_VV.tif".data) = "20200103".data ∧
    directionOf (mkFilename "S1B".data "20200103".data "12SYJ".data "ASC".data "Gamma0_VV.tif".data) = "ASC".data :=
  positional_parse_matches_layout _ _ _ _ _ _ (by decide) (by decide) (by decide)
    (by decide) (by decide)

/-- Claim C2. Temporal relabeling preserves the band-to-date
correspondence: the mosaic's persisted band labels are exactly the N
scene filenames in input order, the band axis is unchanged by
relabeling, and the time assigned to band `i` is parsed (characters
`[4:12]`) from persisted band label `i` — one time per band. -/
theorem relabel_band_i_gets_date_i (keys : List PyStr) :
    (mosaicFor keys).descriptions = filesOf keys ∧
    (relabel (mosaicFor keys)).bandSources = (mosaicFor keys).bandSources ∧
    (relabel (mosaicFor keys)).times.length = (mosaicFor keys).descriptions.length ∧
    ∀ i : Nat, (relabel (mosaicFor keys)).times[i]? =
      ((mosaicFor keys).descriptions[i]?).map dateOf := by
  refine ⟨rfl, rfl, by simp [relabel], fun i => ?_⟩
  simp only [relabel, List.getElem?_map]
  rfl

/-! Section: Chronological sorting -/

/-- A decimal digit character, by code point. -/
def isDig (c : Char) : Bool := decide (48 ≤ c.toNat) && decide (c.toNat ≤ 57)

/-- Numeric value of a string of decimal digits. -/
def digitsVal : PyStr → Nat
  | [] => 0
  | c :: cs => (c.toNat - 48) * 10 ^ cs.length + digitsVal cs

/-- The date embedded in an object key, as a number (YYYYMMDD). -/
def dateVal (k : PyStr) : Nat := digitsVal (sortKey k)

/-- An object key of the expected fixed-width shape: long enough to end
in the 36-character scene filename, with 8 decimal digits at
`[-32:-24]`. -/
def hasDateShape (k : PyStr) : Bool :=
  decide (36 ≤ k.length) && (sortKey k).all isDig

theorem digitsVal_lt : ∀ s : PyStr, (∀ c ∈ s, isDig c = true) → digitsVal s < 10 ^ s.length := by
  intro s
  induction s with
  | nil => intro _; simp [digitsVal]
  | cons c cs ih =>
    intro h
    have hc : c.toNat - 48 ≤ 9 := by
      have := h c (by simp)
      simp [isDig] at this
      omega
    have hcs := ih (fun x hx => h x (by simp [hx]))
    have h1 : (c.toNat - 48) * 10 ^ cs.length ≤ 9 * 10 ^ cs.length :=
      Nat.mul_le_mul hc (Nat.le_refl _)
    calc digitsVal (c :: cs) = (c.toNat - 48) * 10 ^ cs.length + digitsVal cs := rfl
      _ ≤ 9 * 10 ^ cs.length + digitsVal cs := by omega
      _ < 9 * 10 ^ cs.length + 10 ^ cs.length := by omega
      _ = 10 ^ (cs.length + 1) := by ring
      _ = 10 ^ (c :: cs).length := by simp

/-- On equal-length digit strings, Python's lexicographic comparison is
exactly numeric comparison of the denoted numbers. -/
theorem pyStrLe_iff_digitsVal :
    ∀ s t : PyStr, s.length = t.length →
      (∀ c ∈ s, isDig c = true) → (∀ c ∈ t, isDig c = true) →
      (pyStrLe s t = true ↔ digitsVal s ≤ digitsVal t) := by
  intro s
  induction s with
  | nil =>
    intro t hlen _ _
    cases t with
    | nil => simp [pyStrLe]
    | cons b bs => simp at hlen
  | cons a as ih =>
    intro t hlen hs ht
    cases t with
    | nil => simp at hlen
    | cons b bs =>
      have hlen' : as.length = bs.length := by simpa using hlen
      have hsa : isDig a = true := hs a (by simp)
      have htb : isDig b = true := ht b (by simp)
      have hs' : ∀ c ∈ as, isDig c = true := fun c hc => hs c (by simp [hc])
      have ht' : ∀ c ∈ bs, isDig c = true := fun c hc => ht c (by simp [hc])
      have ha48 : 48 ≤ a.toNat ∧ a.toNat ≤ 57 := by simp [isDig] at hsa; omega
      have hb48 : 48 ≤ b.toNat ∧ b.toNat ≤ 57 := by simp [isDig] at htb; omega
      have hvaP : digitsVal as < 10 ^ bs.length := hlen' ▸ digitsVal_lt as hs'
      have hvbP : digitsVal bs < 10 ^ bs.length := digitsVal_lt bs ht'
      simp only [pyStrLe, digitsVal, List.length_cons]
      rw [hlen']
      split
      · rename_i hlt
        constructor
        · intro _
          have hstep : a.toNat - 48 + 1 ≤ b.toNat - 48 := by omega
          have h1 : (a.toNat - 48) * 10 ^ bs.length + digitsVal as
              < (b.toNat - 48) * 10 ^ bs.length + digitsVal bs := by
            calc (a.toNat - 48) * 10 ^ bs.length + digitsVal as
                < (a.toNat - 48) * 10 ^ bs.length + 10 ^ bs.length := by omega
              _ = (a.toNat - 48 + 1) * 10 ^ bs.length := by ring
              _ ≤ (b.toNat - 48) * 10 ^ bs.length :=
                  Nat.mul_le_mul hstep (Nat.le_refl _)
              _ ≤ (b.toNat - 48) * 10 ^ bs.length + digitsVal bs := Nat.le_add_right _ _
          omega
        · intro _; rfl
      · split
        · rename_i hnlt hlt
          simp only [Bool.false_eq_true, false_iff, not_le]
          have hstep : b.toNat - 48 + 1 ≤ a.toNat - 48 := by omega
          calc (b.toNat - 48) * 10 ^ bs.length + digitsVal bs
              < (b.toNat - 48) * 10 ^ bs.length + 10 ^ bs.length := by omega
            _ = (b.toNat - 48 + 1) * 10 ^ bs.length := by ring
            _ ≤ (a.toNat - 48) * 10 ^ bs.length :=
                Nat.mul_le_mul hstep (Nat.le_refl _)
            _ ≤ (a.toNat - 48) * 10 ^ bs.length + digitsVal as := Nat.le_add_right _ _
        · rename_i hnlt hnlt'
          have heq : a.toNat - 48 = b.toNat - 48 := by omega
          rw [heq]
          have hiff := ih bs hlen' hs' ht'
          constructor
          · intro h
            have := hiff.mp h
            omega
          · intro h
            apply hiff.mpr
            omega

/-- The sort key of a long-enough key is 8 characters. -/
theorem sortKey_length (k : PyStr) (h : 36 ≤ k.length) : (sortKey k).length = 8 := by
  unfold sortKey pySlice
  rw [pyIdx_neg _ _ (by norm_num), pyIdx_neg _ _ (by norm_num)]
  simp only [List.length_drop, List.length_take]
  omega

/-- The three mock keys of the end-to-end scenario: embedded dates
`20200101`, `20200103`, `20200102`, with the middle one on the other
satellite platform so that lexical order disagrees with date order. -/
def key0101 : PyStr :=
  "sentinel-s1-rtc-indigo/tiles/RTC/1/IW/12/S/YJ/2020/S1B_20200101_12SYJ_ASC/Gamma0_VV.tif".data

def key0103 : PyStr :=
  "sentinel-s1-rtc-indigo/tiles/RTC/1/IW/12/S/YJ/2020/S1A_20200103_12SYJ_ASC/Gamma0_VV.tif".data

def key0102 : PyStr :=
  "sentinel-s1-rtc-indigo/tiles/RTC/1/IW/12/S/YJ/2020/S1B_20200102_12SYJ_ASC/Gamma0_VV.tif".data

/-- Claim C1. Sorting object keys by the date substring at `[-32:-24]`
returns them in non-decreasing date order, for every list of keys of the
expected fixed-width shape, regardless of lexical order or satellite-id
prefix; and on the three mock keys with embedded dates `20200101`,
`20200103`, `20200102` (in that listing order) the output order is
`20200101, 20200102, 20200103`. -/
theorem catalog_sort_chronological :
    (∀ keys : List PyStr, (∀ k ∈ keys, hasDateShape k = true) →
        (sortKeys keys).Pairwise (fun a b => dateVal a ≤ dateVal b)) ∧
    sortKeys [key0101, key0103, key0102] = [key0101, key0102, key0103] := by
  constructor
  · intro keys hshape
    have hmem : ∀ k ∈ sortKeys keys, k ∈ keys := fun k hk =>
      (List.mergeSort_perm keys keyLe).mem_iff.mp hk
    have hsorted : (sortKeys keys).Pairwise (fun a b => keyLe a b = true) :=
      List.sorted_mergeSort
        (fun x y z hxy hyz => keyLe_trans x y z hxy hyz)
        (fun x y => keyLe_total x y) keys
    refine hsorted.imp_of_mem ?_
    intro a b ha hb hr
    have hsa := hshape a (hmem a ha)
    have hsb := hshape b (hmem b hb)
    simp only [hasDateShape, Bool.and_eq_true, decide_eq_true_eq, List.all_eq_true] at hsa hsb
    have hlen : (sortKey a).length = (sortKey b).length := by
      rw [sortKey_length a hsa.1, sortKey_length b hsb.1]
    exact (pyStrLe_iff_digitsVal (sortKey a) (sortKey b) hlen hsa.2 hsb.2).mp hr
  · have h1 : keyLe key0101 key0103 = true := by decide
    have h2 : keyLe key0103 key0102 = false := by decide
    have h3 : keyLe key0101 key0102 = true := by decide
    simp [sortKeys, List.mergeSort, List.merge, h1, h2, h3]

/-- Witness for C1: the three mock keys are of the expected shape, and
the sorted output is in non-decreasing date order. -/
theorem catalog_sort_chronological_witness :
    (∀ k ∈ [key0101, key0103, key0102], hasDateShape k = true) ∧
    (sortKeys [key0101, key0103, key0102]).Pairwise (fun a b => dateVal a ≤ dateVal b) :=
  ⟨by decide, catalog_sort_chronological.1 _ (by decide)⟩

/-- Claim C10. The chronological sort is stable: two keys with equal
embedded date substrings keep, in the sorted output, the relative order
they had in the storage listing. -/
theorem catalog_sort_stable (l : List PyStr) (a b : PyStr)
    (heq : sortKey a = sortKey b) (hsub : List.Sublist [a, b] l) :
    List.Sublist [a, b] (sortKeys l) := by
  apply List.pair_sublist_mergeSort
    (fun x y z hxy hyz => keyLe_trans x y z hxy hyz)
    (fun x y => keyLe_total x y)
    ?_ hsub
  unfold keyLe
  rw [heq]
  exact pyStrLe_refl _

/-- Two keys sharing the embedded date `20200101`, on different
satellite platforms. -/
def keyA0101 : PyStr :=
  "sentinel-s1-rtc-indigo/tiles/RTC/1/IW/12/S/YJ/2020/S1A_20200101_12SYJ_DSC/Gamma0_VV.tif".data

/-- Witness for C10: `key0101` (platform S1B) is listed before
`keyA0101` (platform S1A) with the same date, and stays before it after
sorting, although lexically it comes second. -/
theorem catalog_sort_stable_witness :
    List.Sublist [key0101, keyA0101] (sortKeys [key0101, key0103, keyA0101]) :=
  catalog_sort_stable _ _ _ (by decide) (by decide)

/-! Section: Aggregation with the no-data sentinel

Pixel values are rationals; a missing value (NaN) is `none`.  `da.where
(da != 0)` turns the no-data sentinel 0 into a missing value, and
`masked=True` on open does the same for the dataset's no-data sentinel
(zero).  xarray's `.mean()` skips missing values by default, and yields
a missing value when nothing remains. -/

/-- `da.where(da != 0)` at one pixel: the sentinel becomes missing. -/
def whereNe0 (v : ℚ) : Option ℚ := if v = 0 then none else some v

/-- Skipna mean: the mean of the non-missing values, missing if there
are none. -/
def nanmean (vs : List (Option ℚ)) : Option ℚ :=
  let valid := vs.filterMap id
  if valid = [] then none else some (valid.sum / valid.length)

/-- `resample(time='1m')` group key: the calendar month (YYYYMM) of a
YYYYMMDD date. -/
def monthOf (d : Nat) : Nat := d / 100

/-- `.resample(time='1m').mean()` on one pixel's dated series: the
skipna mean of the values whose date falls in month `m`. -/
def resampleMeanMonth (series : List (Nat × Option ℚ)) (m : Nat) : Option ℚ :=
  nanmean ((series.filter (fun p => monthOf p.1 == m)).map Prod.snd)

/-- Low-resolution compositing,
`mosaic_mean = da.where(da != 0).resample(time='1m').mean()`, at one
pixel. -/
def mosaic_mean (series : List (Nat × ℚ)) (m : Nat) : Option ℚ :=
  resampleMeanMonth (series.map (fun p => (p.1, whereNe0 p.2))) m

/-- Full-resolution compositing,
`subset = da.sel(...).resample(time='1m').mean()` with `da` opened
`masked=True` (the no-data sentinel, zero, is masked on read), at one
pixel of the selected subset. -/
def subset_monthly_mean (series : List (Nat × ℚ)) (m : Nat) : Option ℚ :=
  resampleMeanMonth (series.map (fun p => (p.1, whereNe0 p.2))) m

/-- The raw values of a series falling in month `m`. -/
def valuesInMonth (series : List (Nat × ℚ)) (m : Nat) : List ℚ :=
  (series.filter (fun p => monthOf p.1 == m)).map Prod.snd

/-- The valid (non-sentinel) values of a series falling in month `m`. -/
def nzInMonth (series : List (Nat × ℚ)) (m : Nat) : List ℚ :=
  (valuesInMonth series m).filter (fun v => decide (v ≠ 0))

theorem masked_month_values (series : List (Nat × ℚ)) (m : Nat) :
    ((series.map (fun p => (p.1, whereNe0 p.2))).filter (fun p => monthOf p.1 == m)).map Prod.snd
      = (valuesInMonth series m).map whereNe0 := by
  unfold valuesInMonth
  induction series with
  | nil => rfl
  | cons p ps ih =>
    by_cases h : monthOf p.1 == m <;>
      simp_all [List.filter_cons, h]

theorem filterMap_whereNe0 (vs : List ℚ) :
    (vs.map whereNe0).filterMap id = vs.filter (fun v => decide (v ≠ 0)) := by
  induction vs with
  | nil => rfl
  | cons v vs ih =>
    by_cases h : v = 0 <;>
      simp [whereNe0, h, List.filterMap_cons, List.filter_cons, ih]

theorem mosaic_mean_eq (series : List (Nat × ℚ)) (m : Nat) :
    mosaic_mean series m =
      if nzInMonth series m = [] then none
      else some ((nzInMonth series m).sum / (nzInMonth series m).length) := by
  unfold mosaic_mean resampleMeanMonth nanmean nzInMonth
  rw [masked_month_values, filterMap_whereNe0]

/-- Claim C4. Aggregation masks the no-data sentinel (zero) before
reducing: a month whose values mix the sentinel with valid values
reduces to the mean of the valid values only — sentinel pixels are
excluded, not averaged in as zeros — and this holds in both the
low-resolution and the full-resolution monthly-mean workflows. -/
theorem agg_excludes_sentinel (series : List (Nat × ℚ)) (m : Nat)
    (_hmix0 : (0 : ℚ) ∈ valuesInMonth series m)
    (hmixn : nzInMonth series m ≠ []) :
    mosaic_mean series m = some ((nzInMonth series m).sum / (nzInMonth series m).length) ∧
    subset_monthly_mean series m = some ((nzInMonth series m).sum / (nzInMonth series m).length) := by
  have key : mosaic_mean series m
      = some ((nzInMonth series m).sum / (nzInMonth series m).length) := by
    rw [mosaic_mean_eq, if_neg hmixn]
  exact ⟨key, key⟩

/-- Witness for C4: January 2020 holds the raw values `4`, `0`, `2`; the
sentinel `0` is excluded and the mean is `(4 + 2) / 2 = 3`, in both
workflows. -/
theorem agg_excludes_sentinel_witness :
    mosaic_mean [(20200105, 4), (20200120, 0), (20200131, 2), (20200215, 9)] 202001
      = some 3 ∧
    subset_monthly_mean [(20200105, 4), (20200120, 0), (20200131, 2), (20200215, 9)] 202001
      = some 3 := by
  have hv : nzInMonth [((20200105 : Nat), (4 : ℚ)), (20200120, 0), (20200131, 2), (20200215, 9)] 202001
      = [4, 2] := by
    norm_num [nzInMonth, valuesInMonth, monthOf, List.filter_cons]
  have h := agg_excludes_sentinel
    [(20200105, 4), (20200120, 0), (20200131, 2), (20200215, 9)] 202001
    (by norm_num [valuesInMonth, monthOf, List.filter_cons])
    (by rw [hv]; simp)
  rw [hv] at h
  norm_num [List.sum_cons, List.sum_nil] at h
  exact h

/-- Claim C6. A month with no valid (non-sentinel) observation yields a
missing layer, not an error: the aggregate is `none`. -/
theorem agg_empty_month_all_missing (series : List (Nat × ℚ)) (m : Nat)
    (h : nzInMonth series m = []) :
    mosaic_mean series m = none := by
  rw [mosaic_mean_eq, if_pos h]

/-- Witness for C6: March 2020 contains only the sentinel value, so its
layer is missing. -/
theorem agg_empty_month_all_missing_witness :
    mosaic_mean [(20200305, 0), (20200410, 5)] 202003 = none :=
  agg_empty_month_all_missing _ _
    (by norm_num [nzInMonth, valuesInMonth, monthOf, List.filter_cons])

/-! Section: Spatial/temporal extraction over a bounding box -/

/-- One pixel of a raster frame: its two spatial coordinates and its
value. -/
structure Pixel where
  x : ℚ
  y : ℚ
  val : ℚ
deriving DecidableEq

/-- `da.sel(x=slice(xmin, xmax), y=slice(ymin, ymax))` membership test:
the pixel's coordinates lie in the closed coordinate ranges of the
region's bounding box. -/
def inBBox (xmin xmax ymin ymax : ℚ) (p : Pixel) : Bool :=
  decide (xmin ≤ p.x) && decide (p.x ≤ xmax) &&
    decide (ymin ≤ p.y) && decide (p.y ≤ ymax)

/-- The axis-aligned bounding-box slice `daT` of one raster frame. -/
def bboxSubset (pix : List Pixel) (xmin xmax ymin ymax : ℚ) : List Pixel :=
  pix.filter (inBBox xmin xmax ymin ymax)

/-- One timestamp of
`daT.where(daT != 0, drop=True).mean(dim=['x','y'])`: after `where`,
sentinel pixels are missing, so the skipna mean runs over the valid
pixels of the subset only, `none` when there are none.  `drop=True`
additionally crops `x`/`y` positions whose condition is False at every
timestamp; those entries are missing after `where` anyway, so the
per-timestamp mean is unchanged — the drop that matters is along
`time`, modelled in `meanTrendSeries`. -/
def mean_trend (pix : List Pixel) (xmin xmax ymin ymax : ℚ) : Option ℚ :=
  nanmean (((bboxSubset pix xmin xmax ymin ymax).map Pixel.val).map whereNe0)

/-- The derived time series of
`daT.where(daT != 0, drop=True).mean(dim=['x','y'])`: `drop=True`
removes every timestamp whose bounding-box subset holds no valid
(non-sentinel) pixel, and each surviving timestamp carries the mean of
its valid pixels. -/
def meanTrendSeries (frames : List (Nat × List Pixel)) (xmin xmax ymin ymax : ℚ) :
    List (Nat × ℚ) :=
  frames.filterMap
    (fun f => (mean_trend f.2 xmin xmax ymin ymax).map (fun v => (f.1, v)))

/-- The valid (non-sentinel) values of the bounding-box subset. -/
def bboxNzVals (pix : List Pixel) (xmin xmax ymin ymax : ℚ) : List ℚ :=
  ((bboxSubset pix xmin xmax ymin ymax).map Pixel.val).filter (fun v => decide (v ≠ 0))

theorem mean_trend_eq (pix : List Pixel) (xmin xmax ymin ymax : ℚ) :
    mean_trend pix xmin xmax ymin ymax =
      if bboxNzVals pix xmin xmax ymin ymax = [] then none
      else some ((bboxNzVals pix xmin xmax ymin ymax).sum
        / (bboxNzVals pix xmin xmax ymin ymax).length) := by
  unfold mean_trend nanmean bboxNzVals
  rw [filterMap_whereNe0]

theorem meanTrendSeries_eq (frames : List (Nat × List Pixel)) (xmin xmax ymin ymax : ℚ) :
    meanTrendSeries frames xmin xmax ymin ymax =
      (frames.filter (fun f => !(bboxNzVals f.2 xmin xmax ymin ymax == []))).map
        (fun f => (f.1, (bboxNzVals f.2 xmin xmax ymin ymax).sum
          / (bboxNzVals f.2 xmin xmax ymin ymax).length)) := by
  induction frames with
  | nil => rfl
  | cons f fs ih =>
    simp only [meanTrendSeries] at ih ⊢
    rw [List.filterMap_cons, List.filter_cons]
    by_cases h : bboxNzVals f.2 xmin xmax ymin ymax = []
    · rw [mean_trend_eq, if_pos h]
      simp [h, ih]
    · rw [mean_trend_eq, if_neg h]
      simp [h, ih]

/-- Counterexample to claim C7 as stated: a timestamp whose bounding-box
subset holds only the no-data sentinel is removed from the derived
series by `drop=True`, so the series does not carry one scalar per
timestamp of the input raster. -/
theorem extraction_series_not_one_per_timestamp :
    meanTrendSeries [(20200101, [⟨1, 1, 0⟩])] 0 2 0 2 = [] ∧
    (meanTrendSeries [(20200101, [⟨1, 1, 0⟩])] 0 2 0 2).length
      ≠ ([(20200101, [⟨1, 1, 0⟩])] : List (Nat × List Pixel)).length := by
  have h : bboxNzVals [(⟨1, 1, 0⟩ : Pixel)] 0 2 0 2 = [] := by
    norm_num [bboxNzVals, bboxSubset, inBBox, List.filter_cons]
  have hs : meanTrendSeries [(20200101, [⟨1, 1, 0⟩])] 0 2 0 2 = [] := by
    rw [meanTrendSeries_eq]
    simp [List.filter_cons, h]
  exact ⟨hs, by rw [hs]; simp⟩

/-- Claim C7 (amended). Spatial/temporal extraction slices by the
region's bounding box only: a pixel is kept exactly when its
coordinates lie in the box (pixels inside the box but outside the
polygon are included — no polygon-exact clipping); the per-timestamp
aggregate is the skipna mean of the subset with the no-data sentinel
(zero) excluded; and the derived time series carries one such scalar
per timestamp whose subset holds at least one valid pixel — timestamps
with none are dropped from the series by `drop=True`. -/
theorem extraction_bbox_and_mean (pix : List Pixel) (xmin xmax ymin ymax : ℚ) :
    (∀ p : Pixel, p ∈ bboxSubset pix xmin xmax ymin ymax ↔
        p ∈ pix ∧ (xmin ≤ p.x ∧ p.x ≤ xmax ∧ ymin ≤ p.y ∧ p.y ≤ ymax)) ∧
    (mean_trend pix xmin xmax ymin ymax =
      if bboxNzVals pix xmin xmax ymin ymax = [] then none
      else some ((bboxNzVals pix xmin xmax ymin ymax).sum
        / (bboxNzVals pix xmin xmax ymin ymax).length)) ∧
    (∀ frames : List (Nat × List Pixel),
      meanTrendSeries frames xmin xmax ymin ymax =
        (frames.filter (fun f => !(bboxNzVals f.2 xmin xmax ymin ymax == []))).map
          (fun f => (f.1, (bboxNzVals f.2 xmin xmax ymin ymax).sum
            / (bboxNzVals f.2 xmin xmax ymin ymax).length))) := by
  refine ⟨fun p => ?_, mean_trend_eq pix xmin xmax ymin ymax,
    fun frames => meanTrendSeries_eq frames xmin xmax ymin ymax⟩
  unfold bboxSubset inBBox
  rw [List.mem_filter]
  simp [and_assoc]

end S1RTC
